import Mathlib

/-!
Verification development for the privilege-boundary core of the thcore
repository (loongarch64 trap dispatch, user context construction, IRQ
handler table, ELF parsing and the ABI user-stack builder).

Each definition is a shallow embedding of the corresponding Rust item;
machine integers are modelled as natural numbers with explicit reduction
modulo 2 ^ 64 where the Rust code relies on wrapping usize arithmetic.
-/

namespace Thcore

/-- The usize modulus: registers and addresses are 64 bits wide. -/
def usizeMod : Nat := 2 ^ 64

/-- Wrapping usize subtraction, as performed by `sp -= len` in release mode. -/
def wsub (a b : Nat) : Nat := (a + 2 ^ 64 - b % 2 ^ 64) % 2 ^ 64

/-- Cast of a Rust isize to usize (`as usize`): two of-complement bit pattern,
i.e. the Euclidean remainder modulo 2 ^ 64. -/
def usizeOfInt (i : Int) : Nat := (i % (2 ^ 64 : Int)).toNat

/-- Embedding of the page-table-entry crate MappingFlags bits used by the
trap dispatcher (READ, WRITE, EXECUTE, USER). -/
structure MappingFlags where
  read : Bool
  write : Bool
  execute : Bool
  user : Bool
deriving DecidableEq, Repr

/-- MappingFlags::READ -/
def MappingFlags.READ : MappingFlags := ⟨true, false, false, false⟩

/-- MappingFlags::WRITE -/
def MappingFlags.WRITE : MappingFlags := ⟨false, true, false, false⟩

/-- MappingFlags::EXECUTE -/
def MappingFlags.EXECUTE : MappingFlags := ⟨false, false, true, false⟩

/-- `flags |= MappingFlags::USER` -/
def MappingFlags.withUser (f : MappingFlags) : MappingFlags :=
  { f with user := true }

/-- Saved registers when a trap occurs (struct TrapFrame in
arch/loongarch64/context.rs): 32 general registers followed by the
prmd, era, badv and crmd status fields. -/
structure TrapFrame where
  regs : Fin 32 → Nat
  prmd : Nat
  era : Nat
  badv : Nat
  crmd : Nat

/-- TrapFrame::default(): the all-zero frame. -/
def TrapFrame.default : TrapFrame := ⟨fun _ => 0, 0, 0, 0, 0⟩

/-- TrapFrame::arg0: the 0th syscall argument, register a0 = regs[4]. -/
def TrapFrame.arg0 (tf : TrapFrame) : Nat := tf.regs 4

/-- TrapFrame::arg1: regs[5]. -/
def TrapFrame.arg1 (tf : TrapFrame) : Nat := tf.regs 5

/-- The loongarch64 exception causes distinguished by the dispatcher;
all remaining hardware causes are collapsed into otherException, which the
dispatcher treats uniformly (fatal). -/
inductive Exception where
  | Syscall
  | LoadPageFault
  | FetchPageFault
  | StorePageFault
  | Breakpoint
  | otherException
deriving DecidableEq, Repr

/-- estat.cause(): either a synchronous exception or an interrupt. -/
inductive Trap where
  | exception (e : Exception)
  | interrupt
deriving DecidableEq, Repr

/-- What the dispatcher did on a trap: which external collaborator it
invoked with which arguments, or that it hit a fatal (panicking) path.
The pageFault constructors record the exact delegation to the
address-space fault handler (vaddr, access flags, is_user). -/
inductive TrapEffect where
  | syscall (num : Nat)
  | pageFaultHandled (vaddr : Nat) (flags : MappingFlags) (isUser : Bool)
  | pageFaultFatal (vaddr : Nat) (flags : MappingFlags) (isUser : Bool)
  | breakpoint
  | irq (num : Nat)
  | fatalUnhandled
deriving DecidableEq, Repr

/-- usize::trailing_zeros (64 for input 0), used to pick the lowest set
bit of the pending-interrupt mask. -/
def ctz (n : Nat) : Nat :=
  if h : n = 0 then 64
  else if n % 2 = 1 then 0
  else ctz (n / 2) + 1
termination_by n
decreasing_by exact Nat.div_lt_self (Nat.pos_of_ne_zero h) (by omega)

/-- handle_breakpoint: advance era past the break instruction. -/
def handle_breakpoint (era : Nat) : Nat := (era + 4) % 2 ^ 64

/-- handle_page_fault in trap.rs: or USER into the flags when the trap
came from user mode, read the faulting address from the badv CSR, and
delegate to the PAGE_FAULT trap handler; panic if it reports unhandled. -/
def handle_page_fault (pageFaultH : Nat → MappingFlags → Bool → Bool)
    (accessFlags : MappingFlags) (isUser : Bool) (badvCsr : Nat) : TrapEffect :=
  let flags := if isUser then accessFlags.withUser else accessFlags
  let vaddr := badvCsr
  if pageFaultH vaddr flags isUser then .pageFaultHandled vaddr flags isUser
  else .pageFaultFatal vaddr flags isUser

/-- loongarch64_trap_handler: reads the trap cause from estat and
dispatches.  External collaborators (the syscall handler and the
address-space page-fault handler) and the hardware CSR values (estat.is,
badv) are passed as parameters.  Returns the updated frame and a record
of the action taken. -/
def loongarch64_trap_handler
    (handleSyscallH : TrapFrame → Nat → Int)
    (pageFaultH : Nat → MappingFlags → Bool → Bool)
    (cause : Trap) (estatIs : Nat) (badvCsr : Nat)
    (tf : TrapFrame) (fromUser : Bool) : TrapFrame × TrapEffect :=
  match cause with
  | .exception .Syscall =>
      ({ tf with
          regs := Function.update tf.regs 4 (usizeOfInt (handleSyscallH tf (tf.regs 11)))
          era := (tf.era + 4) % 2 ^ 64 },
        .syscall (tf.regs 11))
  | .exception .LoadPageFault =>
      (tf, handle_page_fault pageFaultH MappingFlags.READ fromUser badvCsr)
  | .exception .FetchPageFault =>
      (tf, handle_page_fault pageFaultH MappingFlags.READ fromUser badvCsr)
  | .exception .StorePageFault =>
      (tf, handle_page_fault pageFaultH MappingFlags.WRITE fromUser badvCsr)
  | .exception .Breakpoint =>
      ({ tf with era := handle_breakpoint tf.era }, .breakpoint)
  | .interrupt => (tf, .irq (ctz estatIs))
  | .exception .otherException => (tf, .fatalUnhandled)

/-- PPLV_UMODE = 0b11: user privilege level. -/
def PPLV_UMODE : Nat := 3

/-- PIE = 1 << 2: previous-interrupt-enable bit. -/
def PIE : Nat := 4

/-- UspaceContext: wraps exactly one TrapFrame (context.rs). -/
structure UspaceContext where
  tf : TrapFrame

/-- UspaceContext::new(entry, ustack_top, arg0): zeroed frame with
sp (regs[3]), era, prmd and a0 (regs[4]) initialised. -/
def UspaceContext.new (entry ustack_top arg0 : Nat) : UspaceContext :=
  let trap_frame := TrapFrame.default
  let trap_frame := { trap_frame with regs := Function.update trap_frame.regs 3 ustack_top }
  let trap_frame := { trap_frame with era := entry }
  let trap_frame := { trap_frame with prmd := PPLV_UMODE ||| PIE }
  let trap_frame := { trap_frame with regs := Function.update trap_frame.regs 4 arg0 }
  ⟨trap_frame⟩

/-- UspaceContext::get_ip -/
def UspaceContext.get_ip (c : UspaceContext) : Nat := c.tf.era

/-- UspaceContext::get_sp -/
def UspaceContext.get_sp (c : UspaceContext) : Nat := c.tf.regs 3

/-- UspaceContext::set_ip -/
def UspaceContext.set_ip (c : UspaceContext) (pc : Nat) : UspaceContext :=
  ⟨{ c.tf with era := pc }⟩

/-- UspaceContext::set_sp -/
def UspaceContext.set_sp (c : UspaceContext) (sp : Nat) : UspaceContext :=
  ⟨{ c.tf with regs := Function.update c.tf.regs 3 sp }⟩

/-- UspaceContext::set_retval -/
def UspaceContext.set_retval (c : UspaceContext) (a0 : Nat) : UspaceContext :=
  ⟨{ c.tf with regs := Function.update c.tf.regs 4 a0 }⟩

/-- One mutation through the public UspaceContext mutators. -/
inductive UspaceMutation where
  | setIp (pc : Nat)
  | setSp (sp : Nat)
  | setRetval (a0 : Nat)

/-- Apply one mutator. -/
def applyMutation (c : UspaceContext) : UspaceMutation → UspaceContext
  | .setIp pc => c.set_ip pc
  | .setSp sp => c.set_sp sp
  | .setRetval a0 => c.set_retval a0

/-- Apply a sequence of mutators in order. -/
def applyMutations (c : UspaceContext) (ms : List UspaceMutation) : UspaceContext :=
  ms.foldl applyMutation c

/-- HandlerTable<N> from the handler_table crate: N atomic slots, each
either empty (stored 0) or holding a handler (a non-null fn pointer).
The element type is abstracted as `H`; `none` models a slot holding 0. -/
structure HandlerTable (H : Type) (N : Nat) where
  handlers : Nat → Option H

/-- HandlerTable::new(): all entries empty. -/
def HandlerTable.new (H : Type) (N : Nat) : HandlerTable H N := ⟨fun _ => none⟩

/-- HandlerTable::register_handler: bounds check, then compare-exchange
of 0 with the handler; returns whether it succeeded, plus the table
after the operation. -/
def HandlerTable.register_handler {H : Type} {N : Nat}
    (t : HandlerTable H N) (idx : Nat) (handler : H) : Bool × HandlerTable H N :=
  if N ≤ idx then (false, t)
  else
    match t.handlers idx with
    | none => (true, ⟨Function.update t.handlers idx (some handler)⟩)
    | some _ => (false, t)

/-- HandlerTable::unregister_handler: bounds check, then swap the slot
with 0 and return the previous handler if one was present. -/
def HandlerTable.unregister_handler {H : Type} {N : Nat}
    (t : HandlerTable H N) (idx : Nat) : Option H × HandlerTable H N :=
  if N ≤ idx then (none, t)
  else (t.handlers idx, ⟨Function.update t.handlers idx none⟩)

/-- HandlerTable::handle: bounds check, then load the slot; `some h`
means the handler h was invoked and true was returned, `none` means no
handler was invoked and false was returned. -/
def HandlerTable.handle {H : Type} {N : Nat}
    (t : HandlerTable H N) (idx : Nat) : Option H :=
  if N ≤ idx then none
  else t.handlers idx

/-- The ELF object file type read from header.pt2.type_() (only the
cases the code distinguishes). -/
inductive ElfType where
  | Executable
  | SharedObject
  | otherType
deriving DecidableEq, Repr

/-- Program header type (only the cases the code distinguishes; a header
whose get_type() errors behaves like otherPh in all filters used). -/
inductive PhType where
  | Load
  | Interp
  | otherPh
deriving DecidableEq, Repr

/-- One ELF program header as consumed by info.rs. -/
structure ProgramHeader where
  ptype : PhType
  virtual_addr : Nat
deriving DecidableEq, Repr

/-- The view of an xmas_elf::ElfFile that info.rs consumes: the 4 magic
bytes, the object type, and the program-header table. -/
structure ElfFile where
  magic : List Nat
  elf_type : ElfType
  program_headers : List ProgramHeader
deriving DecidableEq, Repr

/-- The 4 ELF magic bytes b"\x7fELF". -/
def elfMagic : List Nat := [0x7f, 0x45, 0x4c, 0x46]

/-- Number of Interp program headers of the image. -/
def interpCount (elf : ElfFile) : Nat :=
  (elf.program_headers.filter (fun ph => ph.ptype == PhType.Interp)).length

/-- ELFParser: the parsed image together with its computed load base. -/
structure ELFParser where
  elf : ElfFile
  base : Nat
deriving DecidableEq, Repr

/-- ELFParser::elf_base_addr: 0 for a fixed-address executable; for a
shared object, interp_base with no interpreter, 0 with exactly one, an
error with more. -/
def elf_base_addr (elf : ElfFile) (interp_base : Nat) : Except String Nat :=
  match elf.elf_type with
  | .Executable => .ok 0
  | .SharedObject =>
      match interpCount elf with
      | 0 => .ok interp_base
      | 1 => .ok 0
      | _ => .error "Multiple interpreters found"
  | .otherType => .error "Unsupported ELF type"

/-- The is_pie test inside ELFParser::new: a shared object, or an
executable that requests an interpreter. -/
def isPie (elf : ElfFile) : Bool :=
  elf.elf_type == ElfType.SharedObject ||
    (elf.elf_type == ElfType.Executable &&
      elf.program_headers.any (fun ph => ph.ptype == PhType.Interp))

/-- ELFParser::new: magic check, base-address check for non-PIE images,
base computation, and the wrapping bias addition for PIE images. -/
def ELFParser.new (elf : ElfFile) (interp_base : Nat) (bias : Option Int)
    (uspace_base : Nat) : Except String ELFParser :=
  if elf.magic ≠ elfMagic then .error "invalid elf!"
  else if !(isPie elf) && elf.program_headers.any
      (fun ph => ph.ptype == PhType.Load && Nat.blt ph.virtual_addr uspace_base)
  then .error "Invalid ELF base address"
  else
    match elf_base_addr elf interp_base with
    | .error e => .error e
    | .ok b =>
        let base := if isPie elf then (b + usizeOfInt (bias.getD 0)) % 2 ^ 64 else b
        .ok ⟨elf, base⟩

/-- AuxvType::RANDOM -/
def AT_RANDOM : Nat := 25

/-- AuxvType::EXECFN -/
def AT_EXECFN : Nat := 31

/-- One auxiliary-vector entry: a (type, value) pair of usizes
(the repr(usize) AuxvType discriminant and the value). -/
structure AuxvEntry where
  auxv_type : Nat
  auxv_val : Nat
deriving DecidableEq, Repr

/-- The in-memory words of an auxv array, as reinterpreted by the
from_raw_parts cast in init_stack: type then value for each entry. -/
def auxvWords (auxv : List AuxvEntry) : List Nat :=
  (auxv.map (fun e => [e.auxv_type, e.auxv_val])).flatten

/-- UserStack from user_stack.rs: just the tracked stack pointer. -/
structure UserStack where
  sp : Nat

/-- UserStack::new -/
def UserStack.new (sp : Nat) : UserStack := ⟨sp⟩

/-- UserStack::push: decrement sp by the byte count and splice the bytes
at the front of the buffer. -/
def UserStack.push (st : UserStack) (src : List Nat) (stack_data : List Nat) :
    UserStack × List Nat :=
  (⟨wsub st.sp src.length⟩, src ++ stack_data)

/-- usize::to_le_bytes: the 8 little-endian bytes of a word. -/
def toLeBytes (v : Nat) : List Nat :=
  [v % 256, v / 256 % 256, v / 256 ^ 2 % 256, v / 256 ^ 3 % 256,
    v / 256 ^ 4 % 256, v / 256 ^ 5 % 256, v / 256 ^ 6 % 256, v / 256 ^ 7 % 256]

/-- Little-endian decoding of a byte list. -/
def fromLeBytes (l : List Nat) : Nat :=
  l.foldr (fun b acc => b + 256 * acc) 0

/-- UserStack::push_usize_slice: push each word of the slice, iterating
in reverse, so that the first word ends up at the lowest address. -/
def UserStack.push_usize_slice : UserStack → List Nat → List Nat → UserStack × List Nat
  | st, [], stack_data => (st, stack_data)
  | st, v :: rest, stack_data =>
      let (st1, data1) := UserStack.push_usize_slice st rest stack_data
      st1.push (toLeBytes v) data1

/-- UserStack::push_str: push the NUL terminator, then the bytes of the
string; return the new sp (the address of the string). -/
def UserStack.push_str (st : UserStack) (s : List Nat) (stack_data : List Nat) :
    UserStack × List Nat × Nat :=
  let (st1, data1) := st.push [0] stack_data
  let (st2, data2) := st1.push s data1
  (st2, data2, st2.sp)

/-- The bytes of "0123456789abcdef", the fixed 16-byte random seed. -/
def randomString : List Nat :=
  [48, 49, 50, 51, 52, 53, 54, 55, 56, 57, 97, 98, 99, 100, 101, 102]

/-- The collect of push_str over a string list: final stack, final data,
and the list of string addresses in input order. -/
def pushStrList : UserStack → List (List Nat) → List Nat → UserStack × List Nat × List Nat
  | st, [], stack_data => (st, stack_data, [])
  | st, s :: rest, stack_data =>
      let (st1, data1, pos) := st.push_str s stack_data
      let (st2, data2, poss) := pushStrList st1 rest data1
      (st2, data2, pos :: poss)

/-- The back-patch loop over the auxv entries: a RANDOM entry receives
the random-seed address, an EXECFN entry receives argv_slice[0]; indexing
argv_slice[0] with an empty argv panics, modelled as none. -/
def patchAuxv : List AuxvEntry → Nat → List Nat → Option (List AuxvEntry)
  | [], _, _ => some []
  | e :: rest, random_str_pos, argv_slice =>
      if e.auxv_type = AT_EXECFN then
        match argv_slice with
        | [] => none
        | a0 :: _ =>
            match patchAuxv rest random_str_pos argv_slice with
            | none => none
            | some r => some (⟨e.auxv_type, a0⟩ :: r)
      else
        let e1 := if e.auxv_type = AT_RANDOM then ⟨e.auxv_type, random_str_pos⟩ else e
        match patchAuxv rest random_str_pos argv_slice with
        | none => none
        | some r => some (e1 :: r)

/-- init_stack from user_stack.rs.  Returns the built byte buffer and
the patched auxv array, or none when the code panics (the assert, or
the out-of-bounds argv_slice[0] index). -/
def init_stack (args envs : List (List Nat)) (auxv : List AuxvEntry) (sp : Nat) :
    Option (List Nat × List AuxvEntry) :=
  let stack_data : List Nat := []
  let stack := UserStack.new sp
  let (stack, stack_data) := stack.push randomString stack_data
  let random_str_pos := stack.sp
  let (stack, stack_data, envs_slice) := pushStrList stack envs stack_data
  let (stack, stack_data, argv_slice) := pushStrList stack args stack_data
  let (stack, stack_data) := stack.push (List.replicate 8 0) stack_data
  let (stack, stack_data) := stack.push (List.replicate (stack.sp % 16) 0) stack_data
  if stack.sp % 16 = 0 then
    match patchAuxv auxv random_str_pos argv_slice with
    | none => none
    | some auxv2 =>
        let (stack, stack_data) := stack.push_usize_slice (auxvWords auxv2) stack_data
        let (stack, stack_data) := stack.push (List.replicate 8 0) stack_data
        let (stack, stack_data) := stack.push_usize_slice envs_slice stack_data
        let (stack, stack_data) := stack.push (List.replicate 8 0) stack_data
        let (stack, stack_data) := stack.push_usize_slice argv_slice stack_data
        let (_, stack_data) := stack.push_usize_slice [args.length] stack_data
        some (stack_data, auxv2)
  else none

/-- app_stack_region: build the stack at the top of the given region
(ustack_top = stack_base + stack_size). -/
def app_stack_region (args envs : List (List Nat)) (auxv : List AuxvEntry)
    (stack_base stack_size : Nat) : Option (List Nat × List AuxvEntry) :=
  init_stack args envs auxv ((stack_base + stack_size) % 2 ^ 64)

/-- Total byte count of a string list as pushed (length + terminator each). -/
def strsBytes (l : List (List Nat)) : Nat :=
  (l.map (fun s => s.length + 1)).sum

/-- The bytes the string list contributes to the buffer: later strings
are pushed below, so they sit in front. -/
def strsData : List (List Nat) → List Nat
  | [] => []
  | s :: rest => strsData rest ++ (s ++ [0])

/-- The stack addresses handed back for each pushed string, in input
order, starting from stack pointer sp. -/
def strsPositions : Nat → List (List Nat) → List Nat
  | _, [] => []
  | sp, s :: rest =>
      wsub sp (1 + s.length) :: strsPositions (wsub sp (1 + s.length)) rest

/-- The bytes a word list contributes to the buffer. -/
def wordsData (l : List Nat) : List Nat :=
  (l.map toLeBytes).flatten

/-- A sample frame for dispatcher witnesses: syscall number register
regs[11] holds 93, era holds 0x1000. -/
def tfSample : TrapFrame :=
  { regs := Function.update (fun _ => 0) 11 93, prmd := 0, era := 0x1000,
    badv := 0, crmd := 0 }

/-- Sample image: shared object with no interpreter header. -/
def elfNoInterp : ElfFile :=
  ⟨elfMagic, .SharedObject, [⟨.Load, 0x2000⟩]⟩

/-- Sample image: shared object with one interpreter header. -/
def elfOneInterp : ElfFile :=
  ⟨elfMagic, .SharedObject, [⟨.Interp, 0x1000⟩, ⟨.Load, 0x2000⟩]⟩

/-- Sample image: executable requesting two interpreters. -/
def elfTwoInterpExec : ElfFile :=
  ⟨elfMagic, .Executable, [⟨.Interp, 0x1000⟩, ⟨.Interp, 0x1000⟩, ⟨.Load, 0x200000⟩]⟩

/-- Sample image: shared object with two interpreter headers. -/
def elfTwoInterpShared : ElfFile :=
  ⟨elfMagic, .SharedObject, [⟨.Interp, 0x1000⟩, ⟨.Interp, 0x1000⟩]⟩

/-- The stack bytes built for one argument "a", no environment, no auxv,
from initial stack pointer 4096: argc = 1, argv[0] = 4078 (0xfee),
argv NULL, envp NULL, 6 alignment bytes plus the 8-byte end marker,
the string bytes and the 16-byte random seed. -/
def dataC5 : List Nat :=
  [1, 0, 0, 0, 0, 0, 0, 0, 238, 15, 0, 0, 0, 0, 0, 0, 0, 0, 0, 0, 0, 0, 0, 0,
    0, 0, 0, 0, 0, 0, 0, 0, 0, 0, 0, 0, 0, 0, 0, 0, 0, 0, 0, 0, 0, 0, 97, 0,
    48, 49, 50, 51, 52, 53, 54, 55, 56, 57, 97, 98, 99, 100, 101, 102]

theorem applyMutations_prmd (c : UspaceContext) (ms : List UspaceMutation) :
    (applyMutations c ms).tf.prmd = c.tf.prmd := by
  induction ms generalizing c with
  | nil => rfl
  | cons m rest ih =>
      show (applyMutations (applyMutation c m) rest).tf.prmd = c.tf.prmd
      rw [ih]
      cases m <;> rfl

/-- C9: Round-trip — constructing a UspaceContext from (entry,
ustack_top, arg0) and reading back the instruction pointer, the stack
pointer and the argument-0 register yields exactly those values. -/
theorem c9_uspace_context_roundtrip (entry ustack_top arg0 : Nat) :
    (UspaceContext.new entry ustack_top arg0).get_ip = entry
  ∧ (UspaceContext.new entry ustack_top arg0).get_sp = ustack_top
  ∧ (UspaceContext.new entry ustack_top arg0).tf.arg0 = arg0 := by
  refine ⟨rfl, ?_, ?_⟩
  · show Function.update (Function.update (fun _ => (0 : Nat)) (3 : Fin 32) ustack_top)
        (4 : Fin 32) arg0 3 = ustack_top
    rw [Function.update_noteq (by decide), Function.update_same]
  · show Function.update (Function.update (fun _ => (0 : Nat)) (3 : Fin 32) ustack_top)
        (4 : Fin 32) arg0 4 = arg0
    rw [Function.update_same]

/-- C8: After UspaceContext::new the prmd field equals
PPLV_UMODE bitor PIE, so it encodes user privilege (low two bits = 3)
with interrupts enabled (bit 2 set), and any sequence of set_ip, set_sp
and set_retval mutations leaves that field unchanged. -/
theorem c8_prmd_user_mode_invariant (entry ustack_top arg0 : Nat)
    (ms : List UspaceMutation) :
    (applyMutations (UspaceContext.new entry ustack_top arg0) ms).tf.prmd
        = PPLV_UMODE ||| PIE
  ∧ (applyMutations (UspaceContext.new entry ustack_top arg0) ms).tf.prmd % 4
        = PPLV_UMODE
  ∧ (applyMutations (UspaceContext.new entry ustack_top arg0) ms).tf.prmd / 4 % 2
        = 1 := by
  have h7 : (UspaceContext.new entry ustack_top arg0).tf.prmd = PPLV_UMODE ||| PIE := rfl
  rw [applyMutations_prmd, h7]
  exact ⟨rfl, by decide, by decide⟩

/-- C3: On a syscall trap the dispatcher records a call of the syscall
handler on the incoming frame and the syscall-number register regs[11],
writes the handler result (cast to usize) into regs[4] — the register
arg0 reads — advances era by exactly 4, and leaves every other register
and status field unchanged. -/
theorem c3_syscall_dispatch
    (handleSyscallH : TrapFrame → Nat → Int)
    (pageFaultH : Nat → MappingFlags → Bool → Bool)
    (estatIs badvCsr : Nat) (tf : TrapFrame) (fromUser : Bool)
    (h : tf.era + 4 < 2 ^ 64) :
    (loongarch64_trap_handler handleSyscallH pageFaultH (.exception .Syscall)
        estatIs badvCsr tf fromUser).2 = .syscall (tf.regs 11)
  ∧ (loongarch64_trap_handler handleSyscallH pageFaultH (.exception .Syscall)
        estatIs badvCsr tf fromUser).1.regs 4
      = usizeOfInt (handleSyscallH tf (tf.regs 11))
  ∧ (loongarch64_trap_handler handleSyscallH pageFaultH (.exception .Syscall)
        estatIs badvCsr tf fromUser).1.arg0
      = usizeOfInt (handleSyscallH tf (tf.regs 11))
  ∧ (loongarch64_trap_handler handleSyscallH pageFaultH (.exception .Syscall)
        estatIs badvCsr tf fromUser).1.era = tf.era + 4
  ∧ (∀ i : Fin 32, i ≠ 4 →
      (loongarch64_trap_handler handleSyscallH pageFaultH (.exception .Syscall)
        estatIs badvCsr tf fromUser).1.regs i = tf.regs i)
  ∧ (loongarch64_trap_handler handleSyscallH pageFaultH (.exception .Syscall)
        estatIs badvCsr tf fromUser).1.prmd = tf.prmd
  ∧ (loongarch64_trap_handler handleSyscallH pageFaultH (.exception .Syscall)
        estatIs badvCsr tf fromUser).1.badv = tf.badv
  ∧ (loongarch64_trap_handler handleSyscallH pageFaultH (.exception .Syscall)
        estatIs badvCsr tf fromUser).1.crmd = tf.crmd := by
  refine ⟨rfl, ?_, ?_, ?_, ?_, rfl, rfl, rfl⟩
  · exact Function.update_same (4 : Fin 32)
      (usizeOfInt (handleSyscallH tf (tf.regs 11))) tf.regs
  · exact Function.update_same (4 : Fin 32)
      (usizeOfInt (handleSyscallH tf (tf.regs 11))) tf.regs
  · exact Nat.mod_eq_of_lt h
  · intro i hi
    exact Function.update_noteq hi
      (usizeOfInt (handleSyscallH tf (tf.regs 11))) tf.regs

/-- Witness for c3_syscall_dispatch at a concrete frame. -/
theorem c3_syscall_dispatch_witness :
    tfSample.era + 4 < 2 ^ 64
  ∧ (loongarch64_trap_handler (fun _ n => Int.ofNat n + 1) (fun _ _ _ => true)
      (.exception .Syscall) 0 0 tfSample true).1.era = tfSample.era + 4
  ∧ (loongarch64_trap_handler (fun _ n => Int.ofNat n + 1) (fun _ _ _ => true)
      (.exception .Syscall) 0 0 tfSample true).2 = .syscall (tfSample.regs 11) :=
  ⟨by decide,
    (c3_syscall_dispatch (fun _ n => Int.ofNat n + 1) (fun _ _ _ => true)
      0 0 tfSample true (by decide)).2.2.2.1,
    (c3_syscall_dispatch (fun _ n => Int.ofNat n + 1) (fun _ _ _ => true)
      0 0 tfSample true (by decide)).1⟩

/-- C1 (amended): on a load page fault or an instruction-fetch page
fault the dispatcher delegates to the address-space fault handler with
the READ access flag, on a store page fault with the WRITE flag, in all
cases adding the user flag exactly when the trap came from user mode and
taking the faulting virtual address from the badv fault-address
register; the frame is left unchanged. -/
theorem c1_page_fault_dispatch
    (handleSyscallH : TrapFrame → Nat → Int)
    (pageFaultH : Nat → MappingFlags → Bool → Bool)
    (estatIs badvCsr : Nat) (tf : TrapFrame) (fromUser : Bool) :
    loongarch64_trap_handler handleSyscallH pageFaultH (.exception .LoadPageFault)
        estatIs badvCsr tf fromUser
      = (tf, if pageFaultH badvCsr ⟨true, false, false, fromUser⟩ fromUser
             then .pageFaultHandled badvCsr ⟨true, false, false, fromUser⟩ fromUser
             else .pageFaultFatal badvCsr ⟨true, false, false, fromUser⟩ fromUser)
  ∧ loongarch64_trap_handler handleSyscallH pageFaultH (.exception .FetchPageFault)
        estatIs badvCsr tf fromUser
      = (tf, if pageFaultH badvCsr ⟨true, false, false, fromUser⟩ fromUser
             then .pageFaultHandled badvCsr ⟨true, false, false, fromUser⟩ fromUser
             else .pageFaultFatal badvCsr ⟨true, false, false, fromUser⟩ fromUser)
  ∧ loongarch64_trap_handler handleSyscallH pageFaultH (.exception .StorePageFault)
        estatIs badvCsr tf fromUser
      = (tf, if pageFaultH badvCsr ⟨false, true, false, fromUser⟩ fromUser
             then .pageFaultHandled badvCsr ⟨false, true, false, fromUser⟩ fromUser
             else .pageFaultFatal badvCsr ⟨false, true, false, fromUser⟩ fromUser) := by
  cases fromUser <;>
    simp [loongarch64_trap_handler, handle_page_fault, MappingFlags.READ,
      MappingFlags.WRITE, MappingFlags.withUser]

/-- Counterexample to C1 as stated: on an instruction-fetch page fault
from user mode the dispatcher delegates with the READ flag set and the
EXECUTE flag clear, not with the execute access flag the claim requires. -/
theorem c1_fetch_fault_counterexample :
    (loongarch64_trap_handler (fun _ _ => 0) (fun _ _ _ => true)
        (.exception .FetchPageFault) 0 0x123 TrapFrame.default true).2
      = .pageFaultHandled 0x123 ⟨true, false, false, true⟩ true
  ∧ (loongarch64_trap_handler (fun _ _ => 0) (fun _ _ _ => true)
        (.exception .FetchPageFault) 0 0x123 TrapFrame.default true).2
      ≠ .pageFaultHandled 0x123 (MappingFlags.EXECUTE.withUser) true :=
  ⟨rfl, by decide⟩

/-- C6: registration on the handler table succeeds exactly when the
cause is in range and the slot is empty; a failed registration leaves
the table unchanged; registering the same in-range cause twice yields
success then failure; unregistering an empty cause reports none; and
dispatch on an empty cause reports not-handled without any handler to
invoke. -/
theorem c6_handler_table {H : Type} {N : Nat} (t : HandlerTable H N)
    (idx : Nat) (handler : H) :
    ((t.register_handler idx handler).1 = true ↔ idx < N ∧ t.handlers idx = none)
  ∧ ((t.register_handler idx handler).1 = false → (t.register_handler idx handler).2 = t)
  ∧ (idx < N → t.handlers idx = none →
      (t.register_handler idx handler).1 = true
    ∧ ∀ h2 : H, ((t.register_handler idx handler).2.register_handler idx h2).1 = false)
  ∧ (t.handlers idx = none → (t.unregister_handler idx).1 = none)
  ∧ (t.handlers idx = none → t.handle idx = none) := by
  refine ⟨?_, ?_, ?_, ?_, ?_⟩
  · constructor
    · intro hreg
      unfold HandlerTable.register_handler at hreg
      by_cases hle : N ≤ idx
      · simp [hle] at hreg
      · refine ⟨by omega, ?_⟩
        rcases hmem : t.handlers idx with _ | v
        · rfl
        · simp [hle, hmem] at hreg
    · rintro ⟨hlt, hnone⟩
      unfold HandlerTable.register_handler
      simp [Nat.not_le_of_lt hlt, hnone]
  · intro hfail
    unfold HandlerTable.register_handler at hfail ⊢
    by_cases hle : N ≤ idx
    · simp [hle]
    · rcases hmem : t.handlers idx with _ | v
      · simp [hle, hmem] at hfail
      · simp [hle, hmem]
  · intro hlt hnone
    constructor
    · unfold HandlerTable.register_handler
      simp [Nat.not_le_of_lt hlt, hnone]
    · intro h2
      unfold HandlerTable.register_handler
      simp [Nat.not_le_of_lt hlt, hnone, Function.update_same]
  · intro hnone
    unfold HandlerTable.unregister_handler
    by_cases hle : N ≤ idx
    · simp [hle]
    · simp [hle, hnone]
  · intro hnone
    unfold HandlerTable.handle
    by_cases hle : N ≤ idx
    · simp [hle]
    · simp [hle, hnone]

theorem usizeOfInt_lt (i : Int) : usizeOfInt i < 2 ^ 64 := by
  unfold usizeOfInt
  have h1 : 0 ≤ i % (2 ^ 64 : Int) := Int.emod_nonneg i (by norm_num)
  have h2 : i % (2 ^ 64 : Int) < 2 ^ 64 := Int.emod_lt_of_pos i (by norm_num)
  omega

theorem new_ok_characterization (elf : ElfFile) (interp_base : Nat)
    (bias : Option Int) (uspace_base : Nat) (p : ELFParser)
    (hok : ELFParser.new elf interp_base bias uspace_base = .ok p) :
    ∃ b, elf_base_addr elf interp_base = .ok b
      ∧ p = ⟨elf, if isPie elf then (b + usizeOfInt (bias.getD 0)) % 2 ^ 64 else b⟩ := by
  unfold ELFParser.new at hok
  split at hok
  · exact absurd hok (by simp)
  · split at hok
    · exact absurd hok (by simp)
    · split at hok
      · exact absurd hok (by simp)
      · next b heq =>
          refine ⟨b, heq, ?_⟩
          injection hok with h
          exact h.symm

theorem interp_any_eq_false (elf : ElfFile) (hcount : interpCount elf = 0) :
    elf.program_headers.any (fun ph => ph.ptype == PhType.Interp) = false := by
  have hnil : elf.program_headers.filter (fun ph => ph.ptype == PhType.Interp) = [] :=
    List.length_eq_zero.mp hcount
  by_contra hcon
  rw [Bool.not_eq_false, List.any_eq_true] at hcon
  obtain ⟨ph, hmem, hph⟩ := hcon
  have hmem2 : ph ∈ elf.program_headers.filter (fun ph => ph.ptype == PhType.Interp) :=
    List.mem_filter.mpr ⟨hmem, hph⟩
  rw [hnil] at hmem2
  exact absurd hmem2 (List.not_mem_nil ph)

/-- C4 (amended): for every position-independent image accepted by
ELFParser::new, with zero interpreter headers the computed base is
interp_base plus the optional bias (wrapping usize addition); with
exactly one interpreter header the computed base equals the optional
bias itself (0 when the bias is absent) rather than always 0. -/
theorem c4_pie_load_base (elf : ElfFile) (interp_base : Nat) (bias : Option Int)
    (uspace_base : Nat) (p : ELFParser)
    (hok : ELFParser.new elf interp_base bias uspace_base = .ok p)
    (hpie : isPie elf = true) :
    (interpCount elf = 0 →
        p.base = (interp_base + usizeOfInt (bias.getD 0)) % 2 ^ 64)
  ∧ (interpCount elf = 1 → p.base = usizeOfInt (bias.getD 0)) := by
  obtain ⟨b, hb, hp⟩ := new_ok_characterization elf interp_base bias uspace_base p hok
  constructor
  · intro hcount
    have hnone := interp_any_eq_false elf hcount
    cases hty : elf.elf_type with
    | Executable => simp [isPie, hty, hnone] at hpie
    | SharedObject =>
        have hbase : elf_base_addr elf interp_base = .ok interp_base := by
          simp [elf_base_addr, hty, hcount]
        rw [hb] at hbase
        injection hbase with hbv
        rw [hp]
        simp only [if_pos hpie]
        rw [hbv]
    | otherType => simp [isPie, hty] at hpie
  · intro hcount
    have hbv : b = 0 := by
      cases hty : elf.elf_type with
      | Executable =>
          have hbase : elf_base_addr elf interp_base = .ok 0 := by
            simp [elf_base_addr, hty]
          rw [hb] at hbase
          injection hbase with hbv
      | SharedObject =>
          have hbase : elf_base_addr elf interp_base = .ok 0 := by
            simp [elf_base_addr, hty, hcount]
          rw [hb] at hbase
          injection hbase with hbv
      | otherType => simp [isPie, hty] at hpie
    rw [hp]
    simp only [if_pos hpie, hbv, Nat.zero_add]
    exact Nat.mod_eq_of_lt (usizeOfInt_lt _)

/-- Witness for c4_pie_load_base: a biased shared object without
interpreter gets base interp_base + bias. -/
theorem c4_pie_load_base_witness :
    ELFParser.new elfNoInterp 0x5000 (some 16) 0 = .ok ⟨elfNoInterp, 0x5010⟩
  ∧ isPie elfNoInterp = true
  ∧ interpCount elfNoInterp = 0
  ∧ (ELFParser.mk elfNoInterp 0x5010).base
      = (0x5000 + usizeOfInt ((some (16 : Int)).getD 0)) % 2 ^ 64 :=
  ⟨by rfl, by rfl, by rfl,
    (c4_pie_load_base elfNoInterp 0x5000 (some 16) 0 ⟨elfNoInterp, 0x5010⟩
      (by rfl) (by rfl)).1 (by rfl)⟩

/-- Counterexample to C4 as stated: a position-independent image with
exactly one interpreter header and bias 16 is accepted with computed
load base 16, not 0. -/
theorem c4_one_interp_counterexample :
    (ELFParser.new elfOneInterp 0x5000 (some 16) 0).toOption.map ELFParser.base
        = some 16
  ∧ (16 : Nat) ≠ 0 :=
  ⟨by rfl, by decide⟩

/-- C7 (amended): an image of shared-object type whose program-header
table holds two or more interpreter entries is rejected by
ELFParser::new with the recoverable multiple-interpreters error; an
executable-type image is not subject to this check. -/
theorem c7_multiple_interpreters (elf : ElfFile) (interp_base : Nat)
    (bias : Option Int) (uspace_base : Nat)
    (hmagic : elf.magic = elfMagic)
    (hty : elf.elf_type = ElfType.SharedObject)
    (hcount : 2 ≤ interpCount elf) :
    ELFParser.new elf interp_base bias uspace_base
      = .error "Multiple interpreters found" := by
  obtain ⟨k, hk⟩ : ∃ k, interpCount elf = k + 2 :=
    ⟨interpCount elf - 2, by omega⟩
  unfold ELFParser.new
  rw [if_neg (by simp [hmagic])]
  have hpie : isPie elf = true := by simp [isPie, hty]
  rw [if_neg (by simp [hpie])]
  have hbase : elf_base_addr elf interp_base = .error "Multiple interpreters found" := by
    simp [elf_base_addr, hty, hk]
  rw [hbase]

/-- Witness for c7_multiple_interpreters at a concrete shared object
with two interpreter headers. -/
theorem c7_multiple_interpreters_witness :
    elfTwoInterpShared.magic = elfMagic
  ∧ elfTwoInterpShared.elf_type = ElfType.SharedObject
  ∧ 2 ≤ interpCount elfTwoInterpShared
  ∧ ELFParser.new elfTwoInterpShared 0x1000 none 0
      = .error "Multiple interpreters found" :=
  ⟨rfl, rfl, by decide,
    c7_multiple_interpreters elfTwoInterpShared 0x1000 none 0 rfl rfl (by decide)⟩

/-- Counterexample to C7 as stated: an executable-type image with two
interpreter program headers is accepted by ELFParser::new, not rejected. -/
theorem c7_exec_two_interp_counterexample :
    (ELFParser.new elfTwoInterpExec 0x1000 none 0).isOk = true := by
  rfl

theorem wsub_lt (a b : Nat) : wsub a b < 2 ^ 64 := by
  unfold wsub; omega

theorem wsub_zero (a : Nat) (h : a < 2 ^ 64) : wsub a 0 = a := by
  unfold wsub; omega

theorem wsub_wsub (a b c : Nat) : wsub (wsub a b) c = wsub a (b + c) := by
  unfold wsub; omega

theorem wsub_mod16 (a : Nat) : wsub a (a % 16) % 16 = 0 := by
  unfold wsub; omega

theorem fromLeBytes_toLeBytes (v : Nat) : fromLeBytes (toLeBytes v) = v % 2 ^ 64 := by
  norm_num [fromLeBytes, toLeBytes]
  omega

theorem push_str_eq (st : UserStack) (s data : List Nat) :
    st.push_str s data
      = (⟨wsub st.sp (1 + s.length)⟩, (s ++ [0]) ++ data, wsub st.sp (1 + s.length)) := by
  simp [UserStack.push_str, UserStack.push, wsub_wsub]

theorem pushStrList_eq (l : List (List Nat)) (st : UserStack) (data : List Nat)
    (h : st.sp < 2 ^ 64) :
    pushStrList st l data
      = (⟨wsub st.sp (strsBytes l)⟩, strsData l ++ data, strsPositions st.sp l) := by
  induction l generalizing st data with
  | nil =>
      simp [pushStrList, strsBytes, strsData, strsPositions, wsub_zero st.sp h]
  | cons s rest ih =>
      rw [pushStrList, push_str_eq]
      try dsimp only
      rw [ih ⟨wsub st.sp (1 + s.length)⟩ ((s ++ [0]) ++ data) (wsub_lt _ _)]
      try dsimp only
      simp only [Prod.mk.injEq, UserStack.mk.injEq, wsub_wsub]
      have harith : 1 + s.length + strsBytes rest = strsBytes (s :: rest) := by
        simp [strsBytes]
        omega
      refine ⟨?_, ?_, ?_⟩
      · rw [harith]
      · simp [strsData, List.append_assoc]
      · simp [strsPositions]

theorem push_usize_slice_eq (l : List Nat) (st : UserStack) (data : List Nat)
    (h : st.sp < 2 ^ 64) :
    UserStack.push_usize_slice st l data
      = (⟨wsub st.sp (8 * l.length)⟩, wordsData l ++ data) := by
  induction l with
  | nil =>
      simp [UserStack.push_usize_slice, wordsData, wsub_zero st.sp h]
  | cons v rest ih =>
      rw [UserStack.push_usize_slice, ih]
      try dsimp only
      simp only [UserStack.push, Prod.mk.injEq, UserStack.mk.injEq, wsub_wsub]
      have hlen : (toLeBytes v).length = 8 := rfl
      have harith : 8 * rest.length + (toLeBytes v).length = 8 * (v :: rest).length := by
        rw [hlen, List.length_cons]
        omega
      refine ⟨?_, ?_⟩
      · rw [harith]
      · simp [wordsData, List.append_assoc]

theorem patchAuxv_nonempty (auxv : List AuxvEntry) (rpos a0 : Nat)
    (rest : List Nat) :
    patchAuxv auxv rpos (a0 :: rest)
      = some (auxv.map (fun e =>
          if e.auxv_type = AT_EXECFN then ⟨e.auxv_type, a0⟩
          else if e.auxv_type = AT_RANDOM then ⟨e.auxv_type, rpos⟩ else e)) := by
  induction auxv with
  | nil => simp [patchAuxv]
  | cons e tl ih =>
      by_cases h1 : e.auxv_type = AT_EXECFN
      · simp [patchAuxv, h1, ih]
      · by_cases h2 : e.auxv_type = AT_RANDOM <;>
          simp [patchAuxv, h1, h2, ih, show AT_RANDOM ≠ AT_EXECFN from by decide]

theorem patchAuxv_empty_iff (auxv : List AuxvEntry) (rpos : Nat) :
    patchAuxv auxv rpos [] = none ↔ ∃ e ∈ auxv, e.auxv_type = AT_EXECFN := by
  induction auxv with
  | nil => simp [patchAuxv]
  | cons e tl ih =>
      by_cases h1 : e.auxv_type = AT_EXECFN
      · constructor
        · intro _
          exact ⟨e, List.mem_cons_self e tl, h1⟩
        · intro _
          simp [patchAuxv, h1]
      · rcases htl : patchAuxv tl rpos [] with _ | r
        · constructor
          · intro _
            obtain ⟨x, hx, hpx⟩ := ih.mp htl
            exact ⟨x, List.mem_cons_of_mem e hx, hpx⟩
          · intro _
            simp [patchAuxv, h1, htl]
        · constructor
          · intro hnone
            exfalso
            simp [patchAuxv, h1, htl] at hnone
          · rintro ⟨x, hx, hpx⟩
            rcases List.mem_cons.mp hx with hxe | hxtl
            · exact absurd (hxe ▸ hpx) h1
            · have hcon := ih.mpr ⟨x, hxtl, hpx⟩
              rw [htl] at hcon
              exact absurd hcon (by simp)

theorem push_usize_slice_snd (st : UserStack) (l data : List Nat) :
    (UserStack.push_usize_slice st l data).2 = wordsData l ++ data := by
  induction l with
  | nil => simp [UserStack.push_usize_slice, wordsData]
  | cons v rest ih =>
      rw [UserStack.push_usize_slice]
      try dsimp only
      simp only [UserStack.push]
      rw [ih]
      simp [wordsData, List.append_assoc]

/-- Unfolding of init_stack into its closed form: the patched auxv array
(none exactly when the back-patch loop panics), and the byte buffer laid
out from argc at the bottom up to the random seed at the top. -/
theorem init_stack_eq (args envs : List (List Nat)) (auxv : List AuxvEntry)
    (sp : Nat) :
    init_stack args envs auxv sp
      = (patchAuxv auxv (wsub sp 16)
            (strsPositions (wsub (wsub sp 16) (strsBytes envs)) args)).map
          (fun auxv2 =>
            (toLeBytes args.length
              ++ wordsData (strsPositions (wsub (wsub sp 16) (strsBytes envs)) args)
              ++ List.replicate 8 0
              ++ wordsData (strsPositions (wsub sp 16) envs)
              ++ List.replicate 8 0
              ++ wordsData (auxvWords auxv2)
              ++ List.replicate
                  ((wsub (wsub (wsub (wsub sp 16) (strsBytes envs)) (strsBytes args)) 8) % 16) 0
              ++ List.replicate 8 0
              ++ strsData args ++ strsData envs ++ randomString,
              auxv2)) := by
  unfold init_stack
  try dsimp only
  rw [show (UserStack.new sp).push randomString [] = (⟨wsub sp 16⟩, randomString) from by
    simp [UserStack.push, UserStack.new, randomString]]
  try dsimp only
  rw [pushStrList_eq envs ⟨wsub sp 16⟩ randomString (wsub_lt _ _)]
  try dsimp only
  rw [pushStrList_eq args ⟨wsub (wsub sp 16) (strsBytes envs)⟩
      (strsData envs ++ randomString) (wsub_lt _ _)]
  try dsimp only
  simp only [UserStack.push, List.length_replicate]
  try dsimp only
  rw [if_pos (wsub_mod16 _)]
  rcases hpa : patchAuxv auxv (wsub sp 16)
      (strsPositions (wsub (wsub sp 16) (strsBytes envs)) args) with _ | auxv2
  · rfl
  · simp only [Option.map_some]
    simp only [push_usize_slice_snd, UserStack.push]
    simp [wordsData, List.append_assoc]

/-- C2: evaluation of the stack builder at the failing input (args "a"
and "b", no environment, no auxv, stack region 0x3FE00000 + 0x20000):
the returned buffer has 72 bytes, so the resulting stack pointer,
stack top minus buffer length, is congruent to 8 modulo 16 — not the
multiple of 16 the specification requires. -/
theorem c2_alignment_failing_input :
    (app_stack_region [[97], [98]] [] [] 0x3FE00000 0x20000).map
        (fun r => r.1.length) = some 72
  ∧ ((0x3FE00000 + 0x20000) - 72) % 16 = 8 :=
  ⟨by decide, by decide⟩

/-- C5: for every successful build, the first 8 bytes of the returned
buffer are the little-endian usize encoding of args.len(): argc is the
last value pushed and sits at the top of the final stack. -/
theorem c5_argc_first_bytes (args envs : List (List Nat)) (auxv : List AuxvEntry)
    (sp : Nat) (data : List Nat) (auxv2 : List AuxvEntry)
    (hok : init_stack args envs auxv sp = some (data, auxv2))
    (hlen : args.length < 2 ^ 64) :
    data.take 8 = toLeBytes args.length
  ∧ fromLeBytes (data.take 8) = args.length := by
  rw [init_stack_eq] at hok
  rcases hpa : patchAuxv auxv (wsub sp 16)
      (strsPositions (wsub (wsub sp 16) (strsBytes envs)) args) with _ | auxv3
  · rw [hpa] at hok
    simp at hok
  · rw [hpa] at hok
    simp only [Option.map_some, Option.some.injEq, Prod.mk.injEq,
      List.append_assoc] at hok
    obtain ⟨rfl, rfl⟩ := hok
    have hlen8 : (toLeBytes args.length).length = 8 := rfl
    rw [List.take_left' hlen8, fromLeBytes_toLeBytes]
    exact ⟨rfl, Nat.mod_eq_of_lt hlen⟩

/-- Witness for c5_argc_first_bytes: one argument "a", empty
environment and auxv, stack pointer 4096. -/
theorem c5_argc_first_bytes_witness :
    init_stack [[97]] [] [] 4096 = some (dataC5, [])
  ∧ ([[97]] : List (List Nat)).length < 2 ^ 64
  ∧ fromLeBytes (dataC5.take 8) = 1 :=
  ⟨by decide, by decide,
    (c5_argc_first_bytes [[97]] [] [] 4096 dataC5 [] (by decide) (by decide)).2⟩

/-- C10: the back-patch loop makes the builder partial exactly as
claimed: the build panics precisely when args is empty while auxv holds
an EXECFN entry; with a non-empty args list the build succeeds, every
EXECFN entry is patched to the stack address of the first argument
string and every RANDOM entry to the stack address of the 16-byte
random seed. -/
theorem c10_backpatch_totality (args envs : List (List Nat))
    (auxv : List AuxvEntry) (sp : Nat) :
    (init_stack args envs auxv sp = none ↔
        args = [] ∧ ∃ e ∈ auxv, e.auxv_type = AT_EXECFN)
  ∧ (∀ a0 rest, args = a0 :: rest →
      ∃ data, init_stack args envs auxv sp
        = some (data, auxv.map (fun e =>
            if e.auxv_type = AT_EXECFN then
              ⟨e.auxv_type, wsub sp (16 + strsBytes envs + (1 + a0.length))⟩
            else if e.auxv_type = AT_RANDOM then ⟨e.auxv_type, wsub sp 16⟩
            else e))) := by
  constructor
  · rw [init_stack_eq]
    cases args with
    | nil =>
        simp only [strsPositions]
        rw [Option.map_eq_none', patchAuxv_empty_iff]
        simp
    | cons a0 rest =>
        simp only [strsPositions]
        rw [patchAuxv_nonempty]
        simp
  · intro a0 rest harg
    subst harg
    rw [init_stack_eq]
    simp only [strsPositions]
    rw [patchAuxv_nonempty]
    have hpos : wsub (wsub (wsub sp 16) (strsBytes envs)) (1 + a0.length)
        = wsub sp (16 + strsBytes envs + (1 + a0.length)) := by
      simp [wsub_wsub, Nat.add_assoc]
    simp only [hpos, Option.map_some]
    exact ⟨_, rfl⟩

/-- Witness for c10_backpatch_totality: an EXECFN auxv entry with empty
args makes the build panic; with one argument it succeeds. -/
theorem c10_backpatch_totality_witness :
    init_stack [] [] [⟨31, 7⟩] 4096 = none
  ∧ (init_stack [[97]] [] [⟨31, 7⟩] 4096).isSome = true := by
  constructor
  · exact (c10_backpatch_totality [] [] [⟨31, 7⟩] 4096).1.mpr
      ⟨rfl, ⟨31, 7⟩, by simp, rfl⟩
  · obtain ⟨d, hd⟩ := (c10_backpatch_totality [[97]] [] [⟨31, 7⟩] 4096).2 [97] [] rfl
    rw [hd]
    rfl

/-- Witness for c6_handler_table: a fresh two-slot table over Nat at
index 0 accepts one registration and rejects the second. -/
theorem c6_handler_table_witness :
    (0 < 2 ∧ (HandlerTable.new Nat 2).handlers 0 = none)
  ∧ ((HandlerTable.new Nat 2).register_handler 0 7).1 = true
  ∧ (((HandlerTable.new Nat 2).register_handler 0 7).2.register_handler 0 8).1 = false :=
  ⟨⟨by decide, rfl⟩,
    ((c6_handler_table (HandlerTable.new Nat 2) 0 7).2.2.1 (by decide) rfl).1,
    ((c6_handler_table (HandlerTable.new Nat 2) 0 7).2.2.1 (by decide) rfl).2 8⟩

end Thcore
